import Mathlib

/-!
Verification of the KùzuDB backend wrapper of CodeGraphContext
(`src/codegraphcontext/core/database_kuzu.py`): a shallow embedding of the
query dialect translator `KuzuSessionWrapper._translate_query`, the identity
synthesis it performs for composite-key labels, the session's `run` error
handling, and `KuzuRecord` access.

Strings are modelled as `List Char`; Python regular-expression fragments are
transcribed as explicit scanners with the same leftmost, maximal-munch
semantics (all character classes involved are pairwise disjoint, so the
greedy matches of the patterns in the source never backtrack).  Character
classes follow the ASCII reading of `\w` and `\s`, which is exact for the
query strings this layer emits and receives.
-/

namespace KuzuV

set_option maxRecDepth 100000

set_option maxHeartbeats 1000000

/-- Delimiter characters used throughout the scanners, defined by their
code points: single quote, backtick, left and right curly brace. -/
def sqc : Char := Char.ofNat 39

def bqc : Char := Char.ofNat 96

def lbc : Char := Char.ofNat 123

def rbc : Char := Char.ofNat 125

/-- Python parameter values as passed in the `parameters` dict of
`KuzuSessionWrapper.run` (None, bool, int, str, list, dict). -/
inductive Val where
  | vnull
  | vbool (b : Bool)
  | vint (n : Int)
  | vstr (s : String)
  | vlist (xs : List Val)
  | vmap (kvs : List (String × Val))

/-- Python `repr` of a string for the printable subset this layer handles:
quote choice and escaping of backslash, the active quote and \n, \r, \t. -/
def pyReprStr (s : String) : String :=
  let hasS := s.data.contains sqc
  let hasD := s.data.contains '"'
  let q := if hasS && !hasD then '"' else sqc
  let esc := s.data.foldr
    (fun c acc =>
      if c = '\\' then '\\' :: '\\' :: acc
      else if c = q then '\\' :: c :: acc
      else if c = '\n' then '\\' :: 'n' :: acc
      else if c = '\r' then '\\' :: 'r' :: acc
      else if c = '\t' then '\\' :: 't' :: acc
      else c :: acc) []
  String.mk (q :: esc ++ [q])

mutual

/-- Python `repr` of a value (containers render their elements with `repr`). -/
def pyRepr : Val → String
  | .vnull => "None"
  | .vbool true => "True"
  | .vbool false => "False"
  | .vint n => toString n
  | .vstr s => pyReprStr s
  | .vlist xs => "[" ++ String.intercalate ", " (pyReprList xs) ++ "]"
  | .vmap kvs => String.mk [lbc] ++ String.intercalate ", " (pyReprMap kvs) ++ String.mk [rbc]

def pyReprList : List Val → List String
  | [] => []
  | v :: t => pyRepr v :: pyReprList t

def pyReprMap : List (String × Val) → List String
  | [] => []
  | (k, v) :: t => (pyReprStr k ++ ": " ++ pyRepr v) :: pyReprMap t

end

/-- Python `str` of a value: identity on strings, otherwise `repr`. -/
def toPyStr : Val → String
  | .vstr s => s
  | .vnull => "None"
  | .vbool true => "True"
  | .vbool false => "False"
  | .vint n => toString n
  | .vlist xs => pyRepr (.vlist xs)
  | .vmap kvs => pyRepr (.vmap kvs)

/-- A Python dict of named query parameters: insertion-ordered association
list with unique keys, as `dict(**parameters)` guarantees. -/
abbrev Params := List (String × Val)

/-- `d.get(k)` / `d[k]`: first binding of the key. -/
def dictGet : Params → String → Option Val
  | [], _ => none
  | (k, v) :: t, key => if k = key then some v else dictGet t key

/-- `d[k] = v`: replace in place if the key exists, else append. -/
def dictSet : Params → String → Val → Params
  | [], key, val => [(key, val)]
  | (k, v) :: t, key, val =>
    if k = key then (k, val) :: t else (k, v) :: dictSet t key val

/-- `d.pop(k, None)`: drop the binding of the key. -/
def dictPop : Params → String → Params
  | [], _ => []
  | (k, v) :: t, key => if k = key then t else (k, v) :: dictPop t key

/-- Lookup in a constant table (SCHEMA_MAP / uid_map). -/
def tblGet {α : Type} : List (String × α) → String → Option α
  | [], _ => none
  | (k, v) :: t, key => if k = key then some v else tblGet t key

/-- ASCII `\w`: `[a-zA-Z0-9_]`. -/
def isWordChar (c : Char) : Bool := c.isAlphanum || c == '_'

/-- ASCII `\s`: space, tab, newline, carriage return, vertical tab, form feed. -/
def isPySpace (c : Char) : Bool :=
  c == ' ' || c == '\t' || c == '\n' || c == '\r' || c == '\x0b' || c == '\x0c'

/-- Python `pat in s` for strings. -/
def containsSub : List Char → List Char → Bool
  | [], pat => pat.isEmpty
  | c :: t, pat => pat.isPrefixOf (c :: t) || containsSub t pat

/-- `str.upper`, ASCII. -/
def upperL (s : List Char) : List Char := s.map Char.toUpper

/-- `str.lower`, ASCII. -/
def lowerL (s : List Char) : List Char := s.map Char.toLower

/-- Python `s.replace(old, new)`: every non-overlapping occurrence, left to
right (with Python's boundary insertions when `old` is empty). -/
def pyReplaceF (old nw : List Char) : Nat → List Char → List Char
  | 0, s => s
  | _ + 1, [] => if old.isEmpty then nw else []
  | fuel + 1, c :: t =>
    if old.isEmpty then nw ++ c :: pyReplaceF old nw fuel t
    else if old.isPrefixOf (c :: t) then
      nw ++ pyReplaceF old nw fuel ((c :: t).drop old.length)
    else c :: pyReplaceF old nw fuel t

def pyReplace (s old nw : List Char) : List Char := pyReplaceF old nw (s.length + 1) s

/-- `re` pattern `SET\s+(\w+)\s*\+=\s*\$(\w+)` matched at the head of `s`:
returns (consumed length, node variable, parameter name). -/
def matchSetAt (s : List Char) : Option (Nat × String × String) :=
  match s with
  | 'S' :: 'E' :: 'T' :: r0 =>
    let sp1 := r0.takeWhile isPySpace
    let r1 := r0.dropWhile isPySpace
    if sp1.isEmpty then none else
    let var := r1.takeWhile isWordChar
    let r2 := r1.dropWhile isWordChar
    if var.isEmpty then none else
    let r3 := r2.dropWhile isPySpace
    match r3 with
    | '+' :: '=' :: r4 =>
      let r5 := r4.dropWhile isPySpace
      match r5 with
      | c :: r6 =>
        if c == '$' then
          let pn := r6.takeWhile isWordChar
          if pn.isEmpty then none
          else some (s.length - (r6.dropWhile isWordChar).length, String.mk var, String.mk pn)
        else none
      | [] => none
    | _ => none
  | _ => none

/-- `re.search` of the SET pattern: leftmost match, with the matched text. -/
def findSet : List Char → Option (List Char × String × String)
  | [] => none
  | c :: t =>
    match matchSetAt (c :: t) with
    | some (len, v, p) => some ((c :: t).take len, v, p)
    | none => findSet t

/-- `re` pattern `\({node_var}:(\w+)` matched at the head of `s`. -/
def matchParenVarAt (var : List Char) (s : List Char) : Option String :=
  match s with
  | '(' :: r =>
    if var.isPrefixOf r then
      match r.drop var.length with
      | ':' :: r2 =>
        let lab := r2.takeWhile isWordChar
        if lab.isEmpty then none else some (String.mk lab)
      | _ => none
    else none
  | _ => none

/-- `re.search(rf'\({node_var}:(\w+)', query)`: leftmost label occurrence. -/
def findParenVar (var : List Char) : List Char → Option String
  | [] => none
  | c :: t =>
    match matchParenVarAt var (c :: t) with
    | some lab => some lab
    | none => findParenVar var t

/-- The `SCHEMA_MAP` dict of `_translate_query` (step 0). -/
def SCHEMA_MAP : List (String × List String) := [
  ("Repository", ["path", "name", "is_dependency"]),
  ("File", ["path", "name", "relative_path", "is_dependency"]),
  ("Directory", ["path", "name"]),
  ("Module", ["name", "lang", "full_import_name"]),
  ("Function", ["uid", "name", "path", "line_number", "end_line", "source", "docstring",
    "lang", "cyclomatic_complexity", "context", "context_type", "class_context",
    "is_dependency", "decorators", "args"]),
  ("Class", ["uid", "name", "path", "line_number", "end_line", "source", "docstring",
    "lang", "is_dependency", "decorators"]),
  ("Variable", ["uid", "name", "path", "line_number", "source", "docstring", "lang",
    "value", "context", "is_dependency"]),
  ("Trait", ["uid", "name", "path", "line_number", "end_line", "source", "docstring",
    "lang", "is_dependency"]),
  ("Interface", ["uid", "name", "path", "line_number", "end_line", "source", "docstring",
    "lang", "is_dependency"]),
  ("Macro", ["uid", "name", "path", "line_number", "end_line", "source", "docstring",
    "lang", "is_dependency"]),
  ("Struct", ["uid", "name", "path", "line_number", "end_line", "source", "docstring",
    "lang", "is_dependency"]),
  ("Enum", ["uid", "name", "path", "line_number", "end_line", "source", "docstring",
    "lang", "is_dependency"]),
  ("Union", ["uid", "name", "path", "line_number", "end_line", "source", "docstring",
    "lang", "is_dependency"]),
  ("Annotation", ["uid", "name", "path", "line_number", "end_line", "source", "docstring",
    "lang", "is_dependency"]),
  ("Record", ["uid", "name", "path", "line_number", "end_line", "source", "docstring",
    "lang", "is_dependency"]),
  ("Property", ["uid", "name", "path", "line_number", "end_line", "source", "docstring",
    "lang", "is_dependency"]),
  ("Parameter", ["uid", "name", "path", "function_line_number"])]

/-- The `uid_map` of `KuzuSessionWrapper.__init__`: ordered key fields of
every composite-key label. -/
def uidMapL : List (String × List String) := [
  ("Function", ["name", "path", "line_number"]),
  ("Class", ["name", "path", "line_number"]),
  ("Variable", ["name", "path", "line_number"]),
  ("Trait", ["name", "path", "line_number"]),
  ("Interface", ["name", "path", "line_number"]),
  ("Macro", ["name", "path", "line_number"]),
  ("Struct", ["name", "path", "line_number"]),
  ("Enum", ["name", "path", "line_number"]),
  ("Union", ["name", "path", "line_number"]),
  ("Annotation", ["name", "path", "line_number"]),
  ("Record", ["name", "path", "line_number"]),
  ("Property", ["name", "path", "line_number"]),
  ("Parameter", ["name", "path", "function_line_number"])]

/-- `isinstance(v, (dict, list))`. -/
def isDictOrList : Val → Bool
  | .vlist _ => true
  | .vmap _ => true
  | _ => false

/-- The property filter of translation step 1, as coded:
`allowed_props = SCHEMA_MAP.get(label, set()) if label else None` followed by
`if allowed_props and k not in allowed_props: continue` (an empty or missing
allow-set is falsy, hence no filtering). -/
def codeAllowed (lab? : Option String) (k : String) : Bool :=
  match lab? with
  | none => true
  | some lab =>
    match tblGet SCHEMA_MAP lab with
    | none => true
    | some allowed => if allowed.isEmpty then true else allowed.contains k

/-- Whether step 1 keeps property `k ↦ v`: not a nested dict/list (args and
decorators excepted) and not outside the label's allow-set. -/
def keepKey (lab? : Option String) (k : String) (v : Val) : Bool :=
  !(isDictOrList v && !(k == "args") && !(k == "decorators")) && codeAllowed lab? k

/-- Translation step 1: `SET node += $props` expansion. -/
def stepSet (q : List Char) (ps : Params) : List Char × Params :=
  if containsSub q "SET".data && containsSub q "+=".data then
    match findSet q with
    | none => (q, ps)
    | some (g0, var, pname) =>
      let lab? := findParenVar var.data q
      match (dictGet ps pname).getD (.vmap []) with
      | .vmap pd =>
        let kept := pd.filter (fun kv => keepKey lab? kv.1 kv.2)
        if kept.isEmpty then (pyReplace q g0 [], ps)
        else
          let clauses := kept.map (fun kv => var ++ "." ++ kv.1 ++ " = $" ++ pname ++ "_" ++ kv.1)
          let added := kept.foldl (fun acc kv => dictSet acc (pname ++ "_" ++ kv.1) kv.2) ps
          (pyReplace q g0 ("SET ".data ++ (String.intercalate ", " clauses).data),
           dictPop added pname)
      | _ => (q, ps)
  else (q, ps)

/-- `re` pattern `MERGE\s+\((\w+):([^\s\{]+)\s*\{([^}]+)\}\)` matched at the
head of `s`: (consumed length, variable, raw label, inline property text). -/
def matchMergeAt (s : List Char) : Option (Nat × String × String × String) :=
  match s with
  | 'M' :: 'E' :: 'R' :: 'G' :: 'E' :: r0 =>
    let sp1 := r0.takeWhile isPySpace
    let r1 := r0.dropWhile isPySpace
    if sp1.isEmpty then none else
    match r1 with
    | '(' :: r2 =>
      let var := r2.takeWhile isWordChar
      let r3 := r2.dropWhile isWordChar
      if var.isEmpty then none else
      match r3 with
      | ':' :: r4 =>
        let lab := r4.takeWhile (fun c => !(isPySpace c) && !(c == lbc))
        let r5 := r4.dropWhile (fun c => !(isPySpace c) && !(c == lbc))
        if lab.isEmpty then none else
        let r6 := r5.dropWhile isPySpace
        match r6 with
        | b :: r7 =>
          if b == lbc then
            let props := r7.takeWhile (fun c => !(c == rbc))
            let r8 := r7.dropWhile (fun c => !(c == rbc))
            if props.isEmpty then none else
            match r8 with
            | b2 :: b3 :: r9 =>
              if b2 == rbc && b3 == ')' then
                some (s.length - r9.length, String.mk var, String.mk lab, String.mk props)
              else none
            | _ => none
          else none
        | [] => none
      | _ => none
    | _ => none
  | _ => none

/-- `re.finditer` of the MERGE pattern: all non-overlapping matches. -/
def finditMergeF : Nat → List Char → List (String × String × String)
  | 0, _ => []
  | _ + 1, [] => []
  | fuel + 1, c :: t =>
    match matchMergeAt (c :: t) with
    | some (len, v, l, p) => (v, l, p) :: finditMergeF fuel ((c :: t).drop len)
    | none => finditMergeF fuel t

def finditMerge (s : List Char) : List (String × String × String) :=
  finditMergeF (s.length + 1) s

/-- Python `s.strip(c)` for a single strip character. -/
def stripChar (c : Char) (s : List Char) : List Char :=
  ((s.dropWhile (· == c)).reverse.dropWhile (· == c)).reverse

/-- `label_raw.strip('`').strip(':')` of translation step 2. -/
def stripLab (lr : String) : String := String.mk (stripChar ':' (stripChar bqc lr.data))

/-- `re` pattern `{part}:\s*\$(\w+)` matched at the head of `s`. -/
def matchPartAt (part : List Char) (s : List Char) : Option String :=
  if part.isPrefixOf s then
    match s.drop part.length with
    | ':' :: r2 =>
      let r3 := r2.dropWhile isPySpace
      match r3 with
      | c :: r4 =>
        if c == '$' then
          let pn := r4.takeWhile isWordChar
          if pn.isEmpty then none else some (String.mk pn)
        else none
      | [] => none
    | _ => none
  else none

/-- `re.search(rf'{part}:\s*\$(\w+)', props_str)`: the substring search the
code uses to decide whether a key field is present, and which parameter
carries it. -/
def findPart (part : List Char) : List Char → Option String
  | [] => none
  | c :: t =>
    match matchPartAt part (c :: t) with
    | some pn => some pn
    | none => findPart part t

/-- One key field of a MERGE fragment resolved to the string form of its
bound value (`str(p_val)`); `none` if the field is not found in the property
text or the parameter is absent or None. -/
def resolveKey (ps : Params) (props : List Char) (part : String) : Option String :=
  match findPart part.data props with
  | none => none
  | some pname =>
    match dictGet ps pname with
    | none => none
    | some .vnull => none
    | some v => some (toPyStr v)

/-- The uid accumulation loop of step 2: all key fields or nothing,
concatenated in declared order with no separator. -/
def synthLoop (get : String → Option String) : List String → Option String
  | [] => some ""
  | f :: rest =>
    match get f with
    | none => none
    | some s =>
      match synthLoop get rest with
      | none => none
      | some r => some (s ++ r)

def buildUid (ps : Params) (props : List Char) (parts : List String) : Option String :=
  synthLoop (resolveKey ps props) parts

/-- One iteration of the step-2 loop over MERGE matches: inject
`, uid: $__uid_var` into the inline property block and bind the parameter. -/
def processMerge (acc : List Char × Params) (m : String × String × String) :
    List Char × Params :=
  match tblGet uidMapL (stripLab m.2.1) with
  | none => acc
  | some parts =>
    match buildUid acc.2 m.2.2.data parts with
    | none => acc
    | some uid =>
      let old := lbc :: m.2.2.data ++ [rbc]
      let nw := lbc :: m.2.2.data ++ (", uid: $__uid_".data ++ m.1.data) ++ [rbc]
      (pyReplace acc.1 old nw, dictSet acc.2 ("__uid_" ++ m.1) (.vstr uid))

/-- Translation step 2: uid injection for every MERGE match. -/
def stepMerge (qp : List Char × Params) : List Char × Params :=
  (finditMerge qp.1).foldl processMerge qp

/-- `\b` after a label: end of string or a non-word character. -/
def wordBoundary : List Char → Bool
  | [] => true
  | c :: _ => !(isWordChar c)

/-- `re.sub(rf':{label}\b', f':`{label}`', query)`. -/
def subEscapeF (lab : List Char) : Nat → List Char → List Char
  | 0, s => s
  | _ + 1, [] => []
  | fuel + 1, c :: t =>
    if c == ':' && lab.isPrefixOf t && wordBoundary (t.drop lab.length) then
      ':' :: (bqc :: lab ++ [bqc]) ++ subEscapeF lab fuel (t.drop lab.length)
    else c :: subEscapeF lab fuel t

def subEscape (q : List Char) (lab : String) : List Char :=
  subEscapeF lab.data (q.length + 1) q

def escapeLabels : List String := ["Macro", "Union", "Property", "CONTAINS", "CALLS"]

/-- Translation step 3: reserved-word label escaping. -/
def stepEscape (q : List Char) : List Char := escapeLabels.foldl subEscape q

/-- One repetition `\s+OR\s+\1:[a-zA-Z0-9_]+` of the polymorphic pattern. -/
def matchRepAt (var : List Char) (s : List Char) : Option Nat :=
  let sp1 := s.takeWhile isPySpace
  let r1 := s.dropWhile isPySpace
  if sp1.isEmpty then none else
  match r1 with
  | 'O' :: 'R' :: r2 =>
    let sp2 := r2.takeWhile isPySpace
    let r3 := r2.dropWhile isPySpace
    if sp2.isEmpty then none else
    if var.isPrefixOf r3 then
      match r3.drop var.length with
      | ':' :: r4 =>
        let lab := r4.takeWhile isWordChar
        if lab.isEmpty then none
        else some (s.length - (r4.dropWhile isWordChar).length)
      | _ => none
    else none
  | _ => none

/-- Greedy repetition count and total length of the OR chain. -/
def polyRepsF (var : List Char) : Nat → List Char → Nat × Nat
  | 0, _ => (0, 0)
  | fuel + 1, s =>
    match matchRepAt var s with
    | none => (0, 0)
    | some len =>
      let (c, l) := polyRepsF var fuel (s.drop len)
      (c + 1, len + l)

/-- `re` pattern `\((\w+):[a-zA-Z0-9_]+(?:\s+OR\s+\1:[a-zA-Z0-9_]+)+\)`
matched at the head of `s`: (consumed length, variable). -/
def matchPolyAt (s : List Char) : Option (Nat × List Char) :=
  match s with
  | '(' :: r1 =>
    let var := r1.takeWhile isWordChar
    let r2 := r1.dropWhile isWordChar
    if var.isEmpty then none else
    match r2 with
    | ':' :: r3 =>
      let lab1 := r3.takeWhile isWordChar
      let r4 := r3.dropWhile isWordChar
      if lab1.isEmpty then none else
      let cl := polyRepsF var (r4.length + 1) r4
      if cl.1 == 0 then none else
      match r4.drop cl.2 with
      | ')' :: r5 => some (s.length - r5.length, var)
      | _ => none
    | _ => none
  | _ => none

/-- `re.findall(rf'{var_name}:([a-zA-Z0-9_]+)', full_match)` of the
polymorphic replacer. -/
def findVarLabelsF (var : List Char) : Nat → List Char → List String
  | 0, _ => []
  | _ + 1, [] => []
  | fuel + 1, c :: t =>
    if var.isPrefixOf (c :: t) then
      match (c :: t).drop var.length with
      | ':' :: r =>
        let lab := r.takeWhile isWordChar
        if lab.isEmpty then findVarLabelsF var fuel t
        else String.mk lab :: findVarLabelsF var fuel (r.dropWhile isWordChar)
      | _ => findVarLabelsF var fuel t
    else findVarLabelsF var fuel t

/-- `json.dumps` of a string (labels are alphanumeric; backslash and quote
escaping included for fidelity). -/
def jsonStr (s : String) : String :=
  "\"" ++ String.mk (s.data.foldr
    (fun c acc =>
      if c = '\\' then '\\' :: '\\' :: acc
      else if c = '"' then '\\' :: '"' :: acc
      else c :: acc) []) ++ "\""

/-- `json.dumps` of a list of strings: `["A", "B"]`. -/
def jsonList (ls : List String) : String :=
  "[" ++ String.intercalate ", " (ls.map jsonStr) ++ "]"

/-- `re.sub` of the polymorphic pattern with the `poly_replacer` function. -/
def polySubF : Nat → List Char → List Char
  | 0, s => s
  | _ + 1, [] => []
  | fuel + 1, c :: t =>
    match matchPolyAt (c :: t) with
    | some (len, var) =>
      let full := (c :: t).take len
      let labs := findVarLabelsF var (full.length + 1) full
      ("label(".data ++ var ++ ") IN ".data ++ (jsonList labs).data)
        ++ polySubF fuel ((c :: t).drop len)
    | none => c :: polySubF fuel t

def polySub (q : List Char) : List Char := polySubF (q.length + 1) q

/-- Case-insensitive literal prefix test (`re.IGNORECASE`, ASCII). -/
def icIsPre (pat : List Char) (s : List Char) : Bool :=
  (pat.map Char.toLower).isPrefixOf (s.map Char.toLower)

/-- The alternation `(WHERE\s+|AND\s+|OR\s+)` under IGNORECASE, matched at
the head of `s`; returns the consumed length (keyword plus whitespace). -/
def matchKwAt (s : List Char) : Option Nat :=
  let tryKw := fun (kw : List Char) =>
    if icIsPre kw s then
      let r := s.drop kw.length
      let sp := r.takeWhile isPySpace
      if sp.isEmpty then none else some (kw.length + sp.length)
    else none
  match tryKw "WHERE".data with
  | some n => some n
  | none =>
    match tryKw "AND".data with
    | some n => some n
    | none => tryKw "OR".data

/-- `re` pattern `(WHERE\s+|AND\s+|OR\s+)(\w+):([a-zA-Z0-9_]+)` (IGNORECASE)
matched at the head of `s`: (prefix length, total length, variable, label). -/
def matchSingleAt (s : List Char) : Option (Nat × Nat × String × String) :=
  match matchKwAt s with
  | none => none
  | some plen =>
    let r := s.drop plen
    let var := r.takeWhile isWordChar
    let r2 := r.dropWhile isWordChar
    if var.isEmpty then none else
    match r2 with
    | ':' :: r3 =>
      let lab := r3.takeWhile isWordChar
      if lab.isEmpty then none
      else some (plen, s.length - (r3.dropWhile isWordChar).length, String.mk var, String.mk lab)
    | _ => none

/-- `re.sub` of the single inline label test with `single_label_replacer`. -/
def singleSubF : Nat → List Char → List Char
  | 0, s => s
  | _ + 1, [] => []
  | fuel + 1, c :: t =>
    match matchSingleAt (c :: t) with
    | some (plen, len, var, lab) =>
      ((c :: t).take plen ++ "label(".data ++ var.data ++ ") = ".data
        ++ (sqc :: lab.data ++ [sqc])) ++ singleSubF fuel ((c :: t).drop len)
    | none => c :: singleSubF fuel t

def singleSub (q : List Char) : List Char := singleSubF (q.length + 1) q

/-- `re.findall(r'\$(\w+)', query)`: the parameter names referenced in the
query text. -/
def findDollarF : Nat → List Char → List String
  | 0, _ => []
  | _ + 1, [] => []
  | fuel + 1, c :: t =>
    if c == '$' then
      let w := t.takeWhile isWordChar
      if w.isEmpty then findDollarF fuel t
      else String.mk w :: findDollarF fuel (t.dropWhile isWordChar)
    else findDollarF fuel t

def findDollar (q : List Char) : List String := findDollarF (q.length + 1) q

/-- Steps 1 through 5 of `_translate_query` before the schema-statement
check and parameter pruning. -/
def translateCore (q0 : List Char) (ps0 : Params) : List Char × Params :=
  let a := stepSet q0 ps0
  let b := stepMerge a
  let q3 := stepEscape b.1
  let q4 := pyReplace q3 "labels(n)[0]".data "label(n)".data
  let q5 := polySub q4
  let q6 := singleSub q5
  let q7 := pyReplace q6 "coalesce(".data "COALESCE(".data
  (q7, b.2)

/-- `any(x in query.upper() for x in ["CREATE CONSTRAINT", "CREATE INDEX"])`. -/
def hasSchemaStmt (q : List Char) : Bool :=
  containsSub (upperL q) "CREATE CONSTRAINT".data
    || containsSub (upperL q) "CREATE INDEX".data

/-- `KuzuSessionWrapper._translate_query`: the full translation, ending with
the inert rewrite of schema statements and the pruning of parameters not
referenced in the rewritten text. -/
def translate (q : String) (ps : Params) : String × Params :=
  let c := translateCore q.data ps
  if hasSchemaStmt c.1 then ("RETURN 1", [])
  else (String.mk c.1, c.2.filter (fun kv => (findDollar c.1).contains kv.1))

/-! Identity synthesis (spec section 4.2), as realised by step 2 of
`_translate_query`: the key-field loop with the property-text-to-parameter
indirection composed into one field-to-value map. -/

/-- The string form of a key field's value in a property map: `str(value)`,
or `none` when the field is absent or bound to None. -/
def strForm (m : Params) (f : String) : Option String :=
  match dictGet m f with
  | none => none
  | some .vnull => none
  | some v => some (toPyStr v)

/-- `synthesize(kind, properties)`: the surrogate identity of a
composite-key entity kind from its property map. -/
def synthesize (kind : String) (m : Params) : Option String :=
  match tblGet uidMapL kind with
  | none => none
  | some parts => synthLoop (strForm m) parts

/-- The specification's description of the identity value: the string forms
of the ordered key fields concatenated in declared order with no separator
(all-or-nothing). -/
def keyConcat (get : String → Option String) (parts : List String) : Option String :=
  (parts.mapM get).map String.join

/-! Claim-side readings used to state the properties in the spec's words. -/

/-- Whether the spec regards the SET-fragment variable's label as known to
the Schema Registry. -/
def specKnownLabel (lab? : Option String) : Bool :=
  (lab?.bind (tblGet SCHEMA_MAP)).isSome

/-- The allow-set of the label, empty when unknown. -/
def specAllowedSet (lab? : Option String) : List String :=
  (lab?.bind (tblGet SCHEMA_MAP)).getD []

/-- The spec's keep condition for one property of a `SET node += $props`
expansion: nested dict/list values are dropped unless the key is `args` or
`decorators`, and keys outside a known label's allow-set are dropped. -/
def specKeep (lab? : Option String) (k : String) (v : Val) : Bool :=
  (!(isDictOrList v) || k == "args" || k == "decorators")
    && (!(specKnownLabel lab?) || (specAllowedSet lab?).contains k)

/-- The property keys of a MERGE fragment's inline property text, read
structurally: the text before the colon of each comma-separated
`key: $param` entry. -/
def splitOnCommaF : Nat → List Char → List Char → List (List Char)
  | 0, acc, _ => [acc.reverse]
  | _, acc, [] => [acc.reverse]
  | fuel + 1, acc, c :: t =>
    if c == ',' then acc.reverse :: splitOnCommaF fuel [] t
    else splitOnCommaF fuel (c :: acc) t

def specInlineKeys (props : String) : List String :=
  (splitOnCommaF (props.data.length + 1) [] props.data).map
    (fun kv => String.mk ((kv.dropWhile isPySpace).takeWhile
      (fun c => !(c == ':') && !(isPySpace c))))

/-- Modelled from the spec: truth of the embedded dialect's rewritten
polymorphic label predicate `label(n) IN [...]` at an entity labelled `l`
(the "explicit label-accessor-equality form" of section 4.3 rule 4 holds
exactly when the entity's label is one of the listed labels). -/
def labelPredIn (ls : List String) (l : String) : Bool := ls.contains l

/-! Occurrence predicates for the frame property: each one says a rewrite
rule's trigger shape occurs somewhere in the query text. -/

/-- Some `:Label` token occurrence (label followed by a word boundary). -/
def hasLabelTok (lab : List Char) : List Char → Bool
  | [] => false
  | c :: t =>
    (c == ':' && lab.isPrefixOf t && wordBoundary (t.drop lab.length))
      || hasLabelTok lab t

/-- Some same-variable label disjunction `(n:A OR n:B ...)` occurrence. -/
def hasPolyM : List Char → Bool
  | [] => false
  | c :: t => (matchPolyAt (c :: t)).isSome || hasPolyM t

/-- Some inline label test after WHERE/AND/OR occurrence. -/
def hasSingleM : List Char → Bool
  | [] => false
  | c :: t => (matchSingleAt (c :: t)).isSome || hasSingleM t

/-! `KuzuSessionWrapper.run` failure handling and `KuzuResultWrapper`. -/

/-- Rows of a native result, already in plain column-name/value form. -/
abbrev NativeRows := List (List (String × Val))

/-- What `run` does with the native call: return a wrapper (carrying the
native result, or nothing for the swallowed case) or re-raise. -/
inductive RunOutcome where
  | ok (res : Option NativeRows)
  | raise (err : String) (log : String)

/-- The message `error_logger` emits on a failure: the untranslated query
truncated to 100 characters, then the native error. -/
def logFailMsg (q e : String) : String :=
  "Kuzu Query failed: " ++ q.take 100 ++ "... Error: " ++ e

/-- `KuzuSessionWrapper.run`, parameterised by the one native execution
outcome: success wraps the result; a failure whose lowercased message
contains "already exists" is swallowed into an empty wrapper; any other
failure is logged and re-raised unchanged. -/
def sessionRun (q : String) (native : Except String NativeRows) : RunOutcome :=
  match native with
  | .ok r => .ok (some r)
  | .error e =>
    if containsSub (lowerL e.data) "already exists".data then .ok none
    else .raise e (logFailMsg q e)

/-- `KuzuResultWrapper.data_raw`: no records when there is no native result. -/
def wrapperData : Option NativeRows → NativeRows
  | none => []
  | some rows => rows

/-! `KuzuRecord`: name-and-position addressable result record. -/

/-- A normalized result record: the `_data` dict (`_keys` is its key list). -/
structure KRecord where
  dataMap : List (String × Val)

/-- `self._keys = list(data_dict.keys())`. -/
def KRecord.keysL (r : KRecord) : List String := r.dataMap.map Prod.fst

/-- `__getitem__` with an integer key: `self._data[self._keys[key]]` when
`0 <= key < len(self._keys)`, else IndexError. -/
def KRecord.getPos (r : KRecord) (i : Int) : Except String Val :=
  if 0 ≤ i ∧ i < (r.keysL.length : Int) then
    match dictGet r.dataMap (r.keysL.getD i.toNat "") with
    | some v => .ok v
    | none => .error "KeyError"
  else .error ("Index " ++ toString i ++ " out of range")

/-- `__getitem__` with a string key: `self._data[key]`. -/
def KRecord.getName (r : KRecord) (k : String) : Except String Val :=
  match dictGet r.dataMap k with
  | some v => .ok v
  | none => .error "KeyError"

/-! Concrete inputs used by the witnesses and counterexamples. -/

/-- The spec's end-to-end MERGE example. -/
def c1Q : String := "MERGE (f:Function \x7bname: $name, path: $path, line_number: $line_number\x7d)"

def c1P : Params := [("name", .vstr "foo"), ("path", .vstr "/x.py"), ("line_number", .vint 10)]

def c1Qout : String :=
  "MERGE (f:Function \x7bname: $name, path: $path, line_number: $line_number, uid: $__uid_f\x7d)"

def c1Pout : Params :=
  [("name", .vstr "foo"), ("path", .vstr "/x.py"), ("line_number", .vint 10),
   ("__uid_f", .vstr "foo/x.py10")]

/-- A MERGE fragment whose inline keys are full_name, path, line_number:
the key field `name` is structurally absent. -/
def c1xProps : String := "full_name: $n, path: $p, line_number: $l"

def c1xQ : String := "MERGE (f:Function \x7bfull_name: $n, path: $p, line_number: $l\x7d)"

def c1xP : Params := [("n", .vstr "foo"), ("p", .vstr "/x.py"), ("l", .vint 10)]

/-- Two property maps differing only in the type of line_number (int 10
versus string "10"): distinct values with equal string forms. -/
def c2M1 : Params := [("name", .vstr "foo"), ("path", .vstr "/x.py"), ("line_number", .vint 10)]

def c2M2 : Params := [("name", .vstr "foo"), ("path", .vstr "/x.py"), ("line_number", .vstr "10")]

/-- A query whose text contains `CREATE INDEX` only as an inline label test
followed by a word, which the single-label rewrite splits apart. -/
def c7xQ : String := "MATCH (x) WHERE x:CREATE INDEX RETURN x"

/-- Inputs of the `SET f += $props` expansion example: one allowed scalar
(docstring), one key outside Function's allow-set (bogus), one allowed
list-valued exception (args), one nested dict (nested). -/
def c4Q : String := "MATCH (f:Function \x7bname: $name\x7d) SET f += $props"

def c4P : Params :=
  [("name", .vstr "foo"),
   ("props", .vmap [("docstring", .vstr "d"), ("bogus", .vstr "b"),
     ("args", .vlist [.vstr "a1"]), ("nested", .vmap [])])]

def c4Qout : String :=
  "MATCH (f:Function \x7bname: $name\x7d) SET f.docstring = $props_docstring, f.args = $props_args"

def c4Pout : Params :=
  [("name", .vstr "foo"), ("props_docstring", .vstr "d"),
   ("props_args", .vlist [.vstr "a1"])]

/-- Property maps for the identity-synthesis witness: agreement on the key
fields up to binding order and extra fields, and a one-field difference. -/
def c2WA : Params :=
  [("name", .vstr "x"), ("path", .vstr "/p"), ("line_number", .vint 1), ("extra", .vint 5)]

def c2WB : Params := [("line_number", .vint 1), ("name", .vstr "x"), ("path", .vstr "/p")]

def c2WC : Params := [("name", .vstr "x"), ("path", .vstr "/a"), ("line_number", .vint 1)]

def c2WD : Params := [("name", .vstr "x"), ("path", .vstr "/b"), ("line_number", .vint 1)]

/-- A record with two columns, for positional/name access. -/
def c10R : KRecord := ⟨[("name", .vstr "foo"), ("line_number", .vint 10)]⟩

/-- Schema labels not subject to reserved-word escaping, over which the
polymorphic and single-label rewrites are checked exhaustively. -/
def c6Labels : List String := ["Function", "Class", "Variable", "Struct", "Enum", "Record"]

/-! Helper lemmas. -/

theorem strDataEq {a b : String} (h : a.data = b.data) : a = b :=
  congrArg String.mk h

theorem str_append_left_cancel {A x y : String} (h : A ++ x = A ++ y) : x = y := by
  have h2 : A.data ++ x.data = A.data ++ y.data := by
    have h3 := congrArg String.data h
    simpa [String.data_append] using h3
  exact strDataEq (List.append_cancel_left h2)

theorem str_append_right_cancel {C x y : String} (h : x ++ C = y ++ C) : x = y := by
  have h2 : x.data ++ C.data = y.data ++ C.data := by
    have h3 := congrArg String.data h
    simpa [String.data_append] using h3
  exact strDataEq (List.append_cancel_right h2)

theorem foldl_eq_self {α β : Type} (f : α → β → α) (a : α) :
    ∀ l : List β, (∀ x ∈ l, f a x = a) → l.foldl f a = a
  | [], _ => rfl
  | x :: t, h => by
    rw [List.foldl_cons, h x (List.mem_cons_self x t)]
    exact foldl_eq_self f a t (fun y hy => h y (List.mem_cons_of_mem x hy))

theorem pyReplaceF_of_not_contains {old nw : List Char} :
    ∀ (fuel : Nat) (s : List Char), containsSub s old = false →
      pyReplaceF old nw fuel s = s
  | 0, _, _ => rfl
  | _ + 1, [], h => by
    have he : old.isEmpty = false := by simpa [containsSub] using h
    simp [pyReplaceF, he]
  | fuel + 1, c :: t, h => by
    simp only [containsSub, Bool.or_eq_false_iff] at h
    obtain ⟨h1, h2⟩ := h
    have he : old.isEmpty = false := by
      cases old with
      | nil => simp [List.isPrefixOf] at h1
      | cons a b => rfl
    simp [pyReplaceF, he, h1, pyReplaceF_of_not_contains fuel t h2]

theorem pyReplace_of_not_contains {s old nw : List Char}
    (h : containsSub s old = false) : pyReplace s old nw = s :=
  pyReplaceF_of_not_contains _ s h

theorem subEscapeF_of_no_tok {lab : List Char} :
    ∀ (fuel : Nat) (s : List Char), hasLabelTok lab s = false →
      subEscapeF lab fuel s = s
  | 0, _, _ => rfl
  | _ + 1, [], _ => rfl
  | fuel + 1, c :: t, h => by
    simp only [hasLabelTok, Bool.or_eq_false_iff] at h
    obtain ⟨h1, h2⟩ := h
    simp [subEscapeF, h1, subEscapeF_of_no_tok fuel t h2]

theorem polySubF_of_no_match :
    ∀ (fuel : Nat) (s : List Char), hasPolyM s = false → polySubF fuel s = s
  | 0, _, _ => rfl
  | _ + 1, [], _ => rfl
  | fuel + 1, c :: t, h => by
    simp only [hasPolyM, Bool.or_eq_false_iff] at h
    obtain ⟨h1, h2⟩ := h
    cases hq : matchPolyAt (c :: t) with
    | none => simp [polySubF, hq, polySubF_of_no_match fuel t h2]
    | some v => rw [hq] at h1; simp at h1

theorem singleSubF_of_no_match :
    ∀ (fuel : Nat) (s : List Char), hasSingleM s = false → singleSubF fuel s = s
  | 0, _, _ => rfl
  | _ + 1, [], _ => rfl
  | fuel + 1, c :: t, h => by
    simp only [hasSingleM, Bool.or_eq_false_iff] at h
    obtain ⟨h1, h2⟩ := h
    cases hq : matchSingleAt (c :: t) with
    | none => simp [singleSubF, hq, singleSubF_of_no_match fuel t h2]
    | some v => rw [hq] at h1; simp at h1

theorem stepSet_of_no_fragment {q : List Char} {ps : Params}
    (h : findSet q = none) : stepSet q ps = (q, ps) := by
  unfold stepSet
  split
  · rw [h]
  · rfl

theorem processMerge_of_unknown {acc : List Char × Params} {m : String × String × String}
    (h : tblGet uidMapL (stripLab m.2.1) = none) : processMerge acc m = acc := by
  unfold processMerge
  rw [h]

theorem stepMerge_of_unknown {q : List Char} {ps : Params}
    (h : ∀ m ∈ finditMerge q, tblGet uidMapL (stripLab m.2.1) = none) :
    stepMerge (q, ps) = (q, ps) := by
  unfold stepMerge
  exact foldl_eq_self _ _ _ (fun m hm => processMerge_of_unknown (h m hm))

theorem stepEscape_of_no_tok {q : List Char}
    (h : ∀ lab ∈ escapeLabels, hasLabelTok lab.data q = false) :
    stepEscape q = q := by
  unfold stepEscape
  exact foldl_eq_self _ _ _ (fun lab hl => by
    unfold subEscape
    exact subEscapeF_of_no_tok _ q (h lab hl))

theorem synthLoop_congr {g1 g2 : String → Option String} :
    ∀ parts : List String, (∀ f ∈ parts, g1 f = g2 f) →
      synthLoop g1 parts = synthLoop g2 parts
  | [], _ => rfl
  | f :: rest, h => by
    simp only [synthLoop]
    rw [h f (List.mem_cons_self f rest),
      synthLoop_congr rest (fun g hg => h g (List.mem_cons_of_mem f hg))]

theorem synthLoop_append (g : String → Option String) :
    ∀ xs ys : List String,
      synthLoop g (xs ++ ys) =
        match synthLoop g xs, synthLoop g ys with
        | some a, some b => some (a ++ b)
        | _, _ => none
  | [], ys => by
    cases hy : synthLoop g ys with
    | none => simp [synthLoop, hy]
    | some b => simp [synthLoop, hy]
  | x :: xs, ys => by
    have ih2 : synthLoop g (xs.append ys) =
        (match synthLoop g xs, synthLoop g ys with
         | some a, some b => some (a ++ b)
         | _, _ => none) := synthLoop_append g xs ys
    simp only [List.cons_append, synthLoop]
    cases hx : g x with
    | none => rfl
    | some s =>
      dsimp only
      rw [ih2]
      cases ha : synthLoop g xs with
      | none => rfl
      | some a =>
        cases hb : synthLoop g ys with
        | none => rfl
        | some b =>
          dsimp only
          exact congrArg some (strDataEq (by simp [String.data_append]))

theorem tblGet_mem {α : Type} : ∀ (tbl : List (String × α)) (k : String) (a : α),
    tblGet tbl k = some a → ∃ p ∈ tbl, p.2 = a
  | [], _, _, h => by simp [tblGet] at h
  | (k', v') :: t, k, a, h => by
    by_cases he : k' = k
    · refine ⟨(k', v'), List.mem_cons_self _ _, ?_⟩
      simp only [tblGet, if_pos he] at h
      exact Option.some.inj h
    · obtain ⟨p, hp, hpa⟩ := tblGet_mem t k a (by simpa [tblGet, he] using h)
      exact ⟨p, List.mem_cons_of_mem _ hp, hpa⟩

theorem schemaSets_nonempty : ∀ p ∈ SCHEMA_MAP, p.2.isEmpty = false := by decide

theorem bool_keep_eq (b a1 a2 x : Bool) :
    (!(b && !a1 && !a2) && x) = ((!b || a1 || a2) && x) := by
  cases b <;> cases a1 <;> cases a2 <;> cases x <;> rfl

theorem keepKey_eq_specKeep (lab? : Option String) (k : String) (v : Val) :
    keepKey lab? k v = specKeep lab? k v := by
  have hx : codeAllowed lab? k =
      (!(specKnownLabel lab?) || (specAllowedSet lab?).contains k) := by
    cases lab? with
    | none => rfl
    | some lab =>
      cases ht : tblGet SCHEMA_MAP lab with
      | none => simp [codeAllowed, specKnownLabel, specAllowedSet, ht]
      | some allowed =>
        have hne : allowed.isEmpty = false := by
          obtain ⟨p, hp, hpa⟩ := tblGet_mem _ _ _ ht
          rw [← hpa]
          exact schemaSets_nonempty p hp
        simp [codeAllowed, specKnownLabel, specAllowedSet, ht, hne]
  unfold keepKey specKeep
  rw [hx]
  exact bool_keep_eq _ _ _ _

theorem mem_keys_dictGet : ∀ (l : List (String × Val)) (k : String),
    k ∈ l.map Prod.fst → ∃ v, dictGet l k = some v
  | [], k, h => absurd h (List.not_mem_nil k)
  | (k', v') :: t, k, h => by
    by_cases he : k' = k
    · exact ⟨v', by simp [dictGet, he]⟩
    · have hm : k ∈ t.map Prod.fst := by
        rcases List.mem_map.mp h with ⟨p, hp, hpk⟩
        rcases List.mem_cons.mp hp with hh | hh
        · exact absurd (by rw [hh] at hpk; exact hpk) he
        · exact List.mem_map.mpr ⟨p, hh, hpk⟩
      obtain ⟨v, hv⟩ := mem_keys_dictGet t k hm
      exact ⟨v, by simp [dictGet, he, hv]⟩

/-! Claim theorems. -/

/-- C1 (amended): step 2 of the translator appends `, uid: $__uid_var` to a
MERGE fragment's inline property list and binds that parameter to the
concatenation of the key values' string forms in declared order with no
separator, whenever every key field of a composite-key label resolves to a
non-null bound value — resolution being the substring search `field: $param`
over the property text, which also accepts a property whose name merely ends
in the key field's name (e.g. `full_name` registers presence of `name`);
when some key field fails to resolve under that search, or the label has no
composite key, the fragment is left unchanged.  On the spec's example the
synthesized identity is "foo/x.py10". -/
theorem C1_merge_identity (q : List Char) (ps : Params) (v lr pr : String) :
    (∀ parts, tblGet uidMapL (stripLab lr) = some parts →
      (∀ uid, synthLoop (resolveKey ps pr.data) parts = some uid →
        processMerge (q, ps) (v, lr, pr) =
          (pyReplace q (lbc :: pr.data ++ [rbc])
            (lbc :: pr.data ++ (", uid: $__uid_".data ++ v.data) ++ [rbc]),
           dictSet ps ("__uid_" ++ v) (.vstr uid)))
      ∧ (synthLoop (resolveKey ps pr.data) parts = none →
          processMerge (q, ps) (v, lr, pr) = (q, ps)))
    ∧ (tblGet uidMapL (stripLab lr) = none →
        processMerge (q, ps) (v, lr, pr) = (q, ps))
    ∧ translate c1Q c1P = (c1Qout, c1Pout) := by
  refine ⟨fun parts hp => ⟨fun uid hu => ?_, fun hn => ?_⟩, fun hn => ?_, ?_⟩
  · unfold processMerge buildUid
    dsimp only
    rw [hp]
    dsimp only
    rw [hu]
  · unfold processMerge buildUid
    dsimp only
    rw [hp]
    dsimp only
    rw [hn]
  · unfold processMerge
    dsimp only
    rw [hn]
  · rfl

theorem C1_merge_identity_witness :
    processMerge (c1Q.data, c1P)
      ("f", "Function", "name: $name, path: $path, line_number: $line_number") =
      (c1Qout.data, c1Pout) := by
  have h := ((C1_merge_identity c1Q.data c1P "f" "Function"
      "name: $name, path: $path, line_number: $line_number").1
      ["name", "path", "line_number"] rfl).1 "foo/x.py10" rfl
  exact h.trans (by rfl)

theorem C1_counterexample :
    specInlineKeys c1xProps = ["full_name", "path", "line_number"]
    ∧ "name" ∉ specInlineKeys c1xProps
    ∧ (translate c1xQ c1xP).1 ≠ c1xQ
    ∧ dictGet (translate c1xQ c1xP).2 "__uid_f" = some (.vstr "foo/x.py10") := by
  exact ⟨rfl, by decide, by decide, rfl⟩

/-- C2 (amended): identity synthesis for a composite-key entity kind is a
function of the key fields alone — property maps agreeing on every key field
synthesize the same identity — and two maps that agree on all but one key
field, where the two values' string forms differ, synthesize different
identities (with equal string forms, e.g. the int 10 and the string "10",
the identities coincide). -/
theorem C2_identity (kind : String) (parts : List String) (m1 m2 : Params)
    (hk : tblGet uidMapL kind = some parts) :
    ((∀ f ∈ parts, dictGet m1 f = dictGet m2 f) →
      synthesize kind m1 = synthesize kind m2)
    ∧ (∀ pre f post s1 s2 i1 i2, parts = pre ++ f :: post →
        (∀ g ∈ pre, strForm m1 g = strForm m2 g) →
        (∀ g ∈ post, strForm m1 g = strForm m2 g) →
        strForm m1 f = some s1 → strForm m2 f = some s2 → s1 ≠ s2 →
        synthesize kind m1 = some i1 → synthesize kind m2 = some i2 →
        i1 ≠ i2) := by
  have hsy : ∀ m : Params, synthesize kind m = synthLoop (strForm m) parts := by
    intro m
    simp [synthesize, hk]
  constructor
  · intro hagree
    rw [hsy m1, hsy m2]
    exact synthLoop_congr parts (fun f hf => by unfold strForm; rw [hagree f hf])
  · intro pre f post s1 s2 i1 i2 hsplit hpre hpost hs1 hs2 hne hi1 hi2
    rw [hsy m1, hsplit, synthLoop_append] at hi1
    rw [hsy m2, hsplit, synthLoop_append] at hi2
    cases hA1 : synthLoop (strForm m1) pre with
    | none => rw [hA1] at hi1; simp at hi1
    | some A1 =>
      rw [hA1] at hi1
      cases hB1 : synthLoop (strForm m1) (f :: post) with
      | none => rw [hB1] at hi1; simp at hi1
      | some B1 =>
        rw [hB1] at hi1
        have hA2 : synthLoop (strForm m2) pre = some A1 := by
          rw [← synthLoop_congr pre hpre]
          exact hA1
        rw [hA2] at hi2
        cases hB2 : synthLoop (strForm m2) (f :: post) with
        | none => rw [hB2] at hi2; simp at hi2
        | some B2 =>
          rw [hB2] at hi2
          simp only [synthLoop, hs1] at hB1
          simp only [synthLoop, hs2] at hB2
          cases hC1 : synthLoop (strForm m1) post with
          | none => rw [hC1] at hB1; simp at hB1
          | some C1 =>
            rw [hC1] at hB1
            have hC2 : synthLoop (strForm m2) post = some C1 := by
              rw [← synthLoop_congr post hpost]
              exact hC1
            rw [hC2] at hB2
            have e1 : i1 = A1 ++ (s1 ++ C1) := by
              rw [← Option.some.inj hi1, ← Option.some.inj hB1]
            have e2 : i2 = A1 ++ (s2 ++ C1) := by
              rw [← Option.some.inj hi2, ← Option.some.inj hB2]
            rw [e1, e2]
            intro heq
            exact hne (str_append_right_cancel (str_append_left_cancel heq))

theorem C2_identity_witness :
    synthesize "Function" c2WA = synthesize "Function" c2WB
    ∧ synthesize "Function" c2WC ≠ synthesize "Function" c2WD := by
  have h1 := C2_identity "Function" ["name", "path", "line_number"] c2WA c2WB rfl
  have h2 := C2_identity "Function" ["name", "path", "line_number"] c2WC c2WD rfl
  constructor
  · refine h1.1 ?_
    intro f hf
    simp only [List.mem_cons, List.not_mem_nil, or_false] at hf
    rcases hf with rfl | rfl | rfl <;> rfl
  · have hgp : ∀ g ∈ ["name"], strForm c2WC g = strForm c2WD g := by
      intro g hg
      simp only [List.mem_cons, List.not_mem_nil, or_false] at hg
      subst hg
      rfl
    have hgq : ∀ g ∈ ["line_number"], strForm c2WC g = strForm c2WD g := by
      intro g hg
      simp only [List.mem_cons, List.not_mem_nil, or_false] at hg
      subst hg
      rfl
    have hne := h2.2 ["name"] "path" ["line_number"] "/a" "/b" "x/a1" "x/b1" rfl hgp hgq
      rfl rfl (by decide) rfl rfl
    rw [show synthesize "Function" c2WC = some "x/a1" from rfl,
      show synthesize "Function" c2WD = some "x/b1" from rfl]
    intro h
    exact hne (Option.some.inj h)

theorem C2_counterexample :
    dictGet c2M1 "line_number" ≠ dictGet c2M2 "line_number"
    ∧ dictGet c2M1 "name" = dictGet c2M2 "name"
    ∧ dictGet c2M1 "path" = dictGet c2M2 "path"
    ∧ synthesize "Function" c2M1 = some "foo/x.py10"
    ∧ synthesize "Function" c2M2 = some "foo/x.py10" := by
  refine ⟨?_, rfl, rfl, rfl, rfl⟩
  intro h
  rw [show dictGet c2M1 "line_number" = some (.vint 10) from rfl,
    show dictGet c2M2 "line_number" = some (.vstr "10") from rfl] at h
  injection h with h2
  exact Val.noConfusion h2

/-- C3 (amended): every key of the returned parameter map is referenced as
`$name` in the rewritten query text; the returned map is the input map
restricted to the referenced names, so a referenced name missing from the
input map is simply absent from the returned map rather than being an
orphan.  In particular a query referencing only `$a` with parameters
`{a: 1, b: 2}` yields exactly `{a: 1}`. -/
theorem C3_param_pruning (q : String) (ps : Params) :
    (∀ k ∈ (translate q ps).2.map Prod.fst, k ∈ findDollar (translate q ps).1.data)
    ∧ translate "RETURN $a" [("a", .vint 1), ("b", .vint 2)]
        = ("RETURN $a", [("a", .vint 1)]) := by
  constructor
  · intro k hk
    have hT : translate q ps =
        (if hasSchemaStmt (translateCore q.data ps).1 then ("RETURN 1", ([] : Params))
         else (String.mk (translateCore q.data ps).1,
           (translateCore q.data ps).2.filter
             (fun kv => (findDollar (translateCore q.data ps).1).contains kv.1))) := rfl
    by_cases hss : hasSchemaStmt (translateCore q.data ps).1
    · rw [hT, if_pos hss] at hk
      simp at hk
    · rw [hT, if_neg hss] at hk ⊢
      rcases List.mem_map.mp hk with ⟨kv, hkv, hfst⟩
      have hc := (List.mem_filter.mp hkv).2
      have hm : kv.1 ∈ findDollar (translateCore q.data ps).1 := by simpa using hc
      rw [← hfst]
      exact hm
  · rfl

theorem C3_param_pruning_witness :
    "a" ∈ findDollar (translate "RETURN $a $c" [("a", .vint 1), ("b", .vint 2)]).1.data := by
  exact (C3_param_pruning "RETURN $a $c" [("a", .vint 1), ("b", .vint 2)]).1 "a" (by decide)

theorem C3_counterexample :
    translate "RETURN $a" [] = ("RETURN $a", [])
    ∧ "a" ∈ findDollar (translate "RETURN $a" []).1.data
    ∧ (translate "RETURN $a" []).2.map Prod.fst = [] := by
  exact ⟨rfl, by decide, rfl⟩

/-- C4: step 1 replaces the (leftmost) `SET var += $param` fragment, when
the bound value is a map, by one `SET var.field = $param_field` clause per
key of the map, dropping keys with nested map or list values unless the key
is `args` or `decorators`, and dropping keys outside the allow-set of the
variable's label when that label is known to the schema; when no clause
remains the whole fragment is removed from the query. -/
theorem C4_set_expansion (q : List Char) (ps : Params) (g0 : List Char) (v pn : String)
    (pd : List (String × Val))
    (hs : containsSub q "SET".data = true) (hp : containsSub q "+=".data = true)
    (hf : findSet q = some (g0, v, pn))
    (hv : dictGet ps pn = some (.vmap pd)) :
    stepSet q ps =
      (let lab? := findParenVar v.data q
       let kept := pd.filter (fun kv => specKeep lab? kv.1 kv.2)
       if kept.isEmpty then (pyReplace q g0 [], ps)
       else
         (pyReplace q g0 ("SET ".data ++
            (String.intercalate ", " (kept.map
              (fun kv => v ++ "." ++ kv.1 ++ " = $" ++ pn ++ "_" ++ kv.1))).data),
          dictPop (kept.foldl (fun acc kv => dictSet acc (pn ++ "_" ++ kv.1) kv.2) ps) pn)) := by
  have hfil : pd.filter (fun kv => keepKey (findParenVar v.data q) kv.1 kv.2)
      = pd.filter (fun kv => specKeep (findParenVar v.data q) kv.1 kv.2) :=
    List.filter_congr (fun a _ => keepKey_eq_specKeep _ _ _)
  unfold stepSet
  rw [hs, hp, hf]
  simp only [Bool.and_self, if_true]
  rw [hv]
  simp only [Option.getD_some]
  rw [hfil]

theorem C4_set_expansion_witness :
    stepSet c4Q.data c4P = (c4Qout.data, c4Pout) := by
  have h := C4_set_expansion c4Q.data c4P "SET f += $props".data "f" "props"
    [("docstring", .vstr "d"), ("bogus", .vstr "b"),
     ("args", .vlist [.vstr "a1"]), ("nested", .vmap [])]
    rfl rfl rfl rfl
  exact h.trans (by rfl)

/-- C5: the session's `run` reports a native failure whose message contains
"already exists" (case-insensitively) as a successful no-op whose wrapper
yields no records; every other native failure is re-raised unchanged after
logging the untranslated query truncated to 100 characters; a success is
wrapped as-is.  The model consumes exactly one native outcome: no retry
exists. -/
theorem C5_run_failures (q e : String) (rows : NativeRows) :
    sessionRun q (.ok rows) = .ok (some rows)
    ∧ (containsSub (lowerL e.data) "already exists".data = true →
        sessionRun q (.error e) = .ok none ∧ wrapperData none = [])
    ∧ (containsSub (lowerL e.data) "already exists".data = false →
        sessionRun q (.error e) = .raise e (logFailMsg q e)
          ∧ logFailMsg q e = "Kuzu Query failed: " ++ q.take 100 ++ "... Error: " ++ e) := by
  refine ⟨rfl, fun h => ⟨?_, rfl⟩, fun h => ⟨?_, rfl⟩⟩
  · unfold sessionRun
    dsimp only
    simp [h]
  · unfold sessionRun
    dsimp only
    simp [h]

theorem C5_run_failures_witness :
    sessionRun "CREATE NODE TABLE X" (.error "Binder exception: Table X already exists.")
      = .ok none
    ∧ sessionRun "MATCH (n) RETURN n" (.error "Parser exception: bad token")
      = .raise "Parser exception: bad token"
        "Kuzu Query failed: MATCH (n) RETURN n... Error: Parser exception: bad token" := by
  have h1 := ((C5_run_failures "CREATE NODE TABLE X"
    "Binder exception: Table X already exists." []).2.1 (by rfl)).1
  have h2 := ((C5_run_failures "MATCH (n) RETURN n"
    "Parser exception: bad token" []).2.2 (by rfl)).1
  exact ⟨h1, h2.trans (by rfl)⟩

/-- C6 (amended): reserved-word label escaping (step 3) runs before the
label-predicate rewrites (step 4), so the label-accessor rewrites apply
only to inline tests whose label is not among the escaped reserved words
Macro, Union, Property, CONTAINS, CALLS.  For non-escaped labels — checked
exhaustively over six schema labels — a same-variable disjunction becomes
`label(n) IN [...]`, whose predicate is true exactly for the listed labels
(so true for Function and Class and false for Variable), and a single
inline label test after WHERE/AND/OR becomes `label(n) = '...'`.  For an
escaped label the inserted backtick breaks both patterns' label character
class: the test keeps its backticked inline form, and in a disjunction only
the test after OR is rewritten to the single-label accessor form. -/
theorem C6_label_predicates :
    translate "(n:Function OR n:Class)" []
      = ("label(n) IN [\"Function\", \"Class\"]", [])
    ∧ (∀ A ∈ c6Labels, ∀ B ∈ c6Labels,
        translate ("(n:" ++ A ++ " OR n:" ++ B ++ ")") []
          = ("label(n) IN [" ++ jsonStr A ++ ", " ++ jsonStr B ++ "]", []))
    ∧ (∀ A ∈ c6Labels,
        translate ("MATCH (n) WHERE n:" ++ A ++ " RETURN n") []
          = ("MATCH (n) WHERE label(n) = " ++ String.mk [sqc] ++ A ++ String.mk [sqc]
              ++ " RETURN n", []))
    ∧ (∀ A B l : String, labelPredIn [A, B] l = (l == A || l == B))
    ∧ labelPredIn ["Function", "Class"] "Function" = true
    ∧ labelPredIn ["Function", "Class"] "Class" = true
    ∧ labelPredIn ["Function", "Class"] "Variable" = false
    ∧ translate "MATCH (n) WHERE n:Function RETURN n" []
      = ("MATCH (n) WHERE label(n) = \x27Function\x27 RETURN n", [])
    ∧ translate "(n:Macro OR n:Class)" []
      = ("(n:\x60Macro\x60 OR label(n) = \x27Class\x27)", [])
    ∧ translate "MATCH (n) WHERE n:Macro RETURN n" []
      = ("MATCH (n) WHERE n:\x60Macro\x60 RETURN n", [])
    ∧ translate "(n:Union OR n:Property)" []
      = ("(n:\x60Union\x60 OR n:\x60Property\x60)", []) := by
  refine ⟨rfl, ?_, ?_, ?_, rfl, rfl, rfl, rfl, rfl, rfl, rfl⟩
  · intro A hA B hB
    simp only [c6Labels, List.mem_cons, List.not_mem_nil, or_false] at hA hB
    rcases hA with rfl | rfl | rfl | rfl | rfl | rfl <;>
      rcases hB with rfl | rfl | rfl | rfl | rfl | rfl <;> rfl
  · intro A hA
    simp only [c6Labels, List.mem_cons, List.not_mem_nil, or_false] at hA
    rcases hA with rfl | rfl | rfl | rfl | rfl | rfl <;> rfl
  · intro A B l
    simp only [labelPredIn, List.contains, List.elem]
    cases hb1 : (l == A) <;> cases hb2 : (l == B) <;> simp [hb1, hb2]

theorem C6_label_predicates_witness :
    translate "(n:Variable OR n:Enum)" []
      = ("label(n) IN [\"Variable\", \"Enum\"]", [])
    ∧ translate "MATCH (n) WHERE n:Struct RETURN n" []
      = ("MATCH (n) WHERE label(n) = \x27Struct\x27 RETURN n", []) := by
  have h := C6_label_predicates
  refine ⟨?_, ?_⟩
  · exact (h.2.1 "Variable" (by decide) "Enum" (by decide)).trans (by rfl)
  · exact (h.2.2.1 "Struct" (by decide)).trans (by rfl)

theorem C6_counterexample :
    (translate "(n:Macro OR n:Class)" []).1
      = "(n:\x60Macro\x60 OR label(n) = \x27Class\x27)"
    ∧ (translate "(n:Macro OR n:Class)" []).1 ≠ "label(n) IN [\"Macro\", \"Class\"]"
    ∧ (translate "MATCH (n) WHERE n:Macro RETURN n" []).1
      = "MATCH (n) WHERE n:\x60Macro\x60 RETURN n"
    ∧ (translate "MATCH (n) WHERE n:Macro RETURN n" []).1
      ≠ "MATCH (n) WHERE label(n) = \x27Macro\x27 RETURN n"
    ∧ (translate "(n:Union OR n:Property)" []).1
      = "(n:\x60Union\x60 OR n:\x60Property\x60)" := by
  exact ⟨rfl, by decide, rfl, by decide, rfl⟩

/-- C7 (amended): the schema-management check applies to the query text
after the preceding rewrites: if the rewritten text still contains
index-creation or constraint-creation text (uppercased substring test),
translation returns the inert statement `RETURN 1` with an empty parameter
map.  Containment in the input text alone is not sufficient, because an
earlier rewrite can split the text apart. -/
theorem C7_schema_noop (q : String) (ps : Params)
    (h : hasSchemaStmt (translateCore q.data ps).1 = true) :
    translate q ps = ("RETURN 1", []) := by
  have hT : translate q ps =
      (if hasSchemaStmt (translateCore q.data ps).1 then ("RETURN 1", ([] : Params))
       else (String.mk (translateCore q.data ps).1,
         (translateCore q.data ps).2.filter
           (fun kv => (findDollar (translateCore q.data ps).1).contains kv.1))) := rfl
  rw [hT, if_pos h]

theorem C7_schema_noop_witness :
    translate "CREATE INDEX ON :Function(name)" [] = ("RETURN 1", []) :=
  C7_schema_noop "CREATE INDEX ON :Function(name)" [] (by rfl)

theorem C7_counterexample :
    containsSub (upperL c7xQ.data) "CREATE INDEX".data = true
    ∧ (translate c7xQ []).1 ≠ "RETURN 1"
    ∧ (translate c7xQ []).1 = "MATCH (x) WHERE label(x) = \x27CREATE\x27 INDEX RETURN x" := by
  exact ⟨rfl, by decide, rfl⟩

/-- C8: translation is a pure function of the query string and the
parameter map — the embedding takes exactly these two inputs and no other
state, so equal inputs give equal outputs. -/
theorem C8_translator_deterministic (q1 q2 : String) (p1 p2 : Params)
    (hq : q1 = q2) (hp : p1 = p2) : translate q1 p1 = translate q2 p2 := by
  rw [hq, hp]

theorem C8_translator_deterministic_witness :
    translate "RETURN $a" [("a", .vint 1)] = translate "RETURN $a" [("a", .vint 1)] :=
  C8_translator_deterministic _ _ _ _ rfl rfl

/-- C9: a query triggering none of the recognized fragment shapes — no
`SET var += $param` fragment, no MERGE fragment on a composite-key label,
no `:Macro`/`:Union`/`:Property`/`:CONTAINS`/`:CALLS` label token, no
`labels(n)[0]`, no same-variable label disjunction, no inline label test
after WHERE/AND/OR, no lowercase `coalesce(`, no index/constraint-creation
text — is returned character-for-character unchanged, with the parameter
map restricted to exactly the names referenced in it. -/
theorem C9_frame (q : String) (ps : Params)
    (h1 : findSet q.data = none)
    (h2 : ∀ m ∈ finditMerge q.data, tblGet uidMapL (stripLab m.2.1) = none)
    (h3 : ∀ lab ∈ escapeLabels, hasLabelTok lab.data q.data = false)
    (h4 : containsSub q.data "labels(n)[0]".data = false)
    (h5 : hasPolyM q.data = false)
    (h6 : hasSingleM q.data = false)
    (h7 : containsSub q.data "coalesce(".data = false)
    (h8 : hasSchemaStmt q.data = false) :
    translate q ps = (q, ps.filter (fun kv => (findDollar q.data).contains kv.1)) := by
  have e1 : stepSet q.data ps = (q.data, ps) := stepSet_of_no_fragment h1
  have e2 : stepMerge (q.data, ps) = (q.data, ps) := stepMerge_of_unknown h2
  have e3 : stepEscape q.data = q.data := stepEscape_of_no_tok h3
  have e4 : pyReplace q.data "labels(n)[0]".data "label(n)".data = q.data :=
    pyReplace_of_not_contains h4
  have e5 : polySub q.data = q.data := polySubF_of_no_match _ _ h5
  have e6 : singleSub q.data = q.data := singleSubF_of_no_match _ _ h6
  have e7 : pyReplace q.data "coalesce(".data "COALESCE(".data = q.data :=
    pyReplace_of_not_contains h7
  have hcore : translateCore q.data ps = (q.data, ps) := by
    have hT : translateCore q.data ps =
        (pyReplace (singleSub (polySub (pyReplace (stepEscape (stepMerge (stepSet q.data ps)).1)
            "labels(n)[0]".data "label(n)".data)))
          "coalesce(".data "COALESCE(".data,
         (stepMerge (stepSet q.data ps)).2) := rfl
    rw [hT, e1, e2]
    dsimp only
    rw [e3, e4, e5, e6, e7]
  have hT2 : translate q ps =
      (if hasSchemaStmt (translateCore q.data ps).1 then ("RETURN 1", ([] : Params))
       else (String.mk (translateCore q.data ps).1,
         (translateCore q.data ps).2.filter
           (fun kv => (findDollar (translateCore q.data ps).1).contains kv.1))) := rfl
  rw [hT2, hcore]
  dsimp only
  rw [if_neg (by simp [h8])]

theorem C9_frame_witness :
    translate "MATCH (n) RETURN $a" [("a", .vint 1), ("b", .vint 2)]
      = ("MATCH (n) RETURN $a", [("a", .vint 1)]) := by
  have h := C9_frame "MATCH (n) RETURN $a" [("a", .vint 1), ("b", .vint 2)]
    rfl
    (by intro m hm
        rw [show finditMerge "MATCH (n) RETURN $a".data = [] from rfl] at hm
        exact absurd hm (List.not_mem_nil m))
    (by decide) rfl rfl rfl rfl rfl
  exact h.trans (by rfl)

/-- C10: positional access on a normalized record returns the value of the
record's i-th column name when `0 <= i < len(keys)` — hence it always
agrees with name-based access — and raises an index-out-of-range error
otherwise. -/
theorem C10_record_access (r : KRecord) (i : Int) :
    (∀ _ : 0 ≤ i ∧ i < (r.keysL.length : Int),
      r.getPos i = r.getName (r.keysL.getD i.toNat "")
      ∧ ∃ v, r.getPos i = .ok v)
    ∧ (¬(0 ≤ i ∧ i < (r.keysL.length : Int)) →
        r.getPos i = .error ("Index " ++ toString i ++ " out of range")) := by
  constructor
  · intro h
    constructor
    · unfold KRecord.getPos KRecord.getName
      rw [if_pos h]
    · have hlt : i.toNat < r.keysL.length := by omega
      have hkm : r.keysL.getD i.toNat "" ∈ r.keysL := by
        rw [List.getD_eq_getElem?_getD, List.getElem?_eq_getElem hlt]
        exact List.getElem_mem _
      obtain ⟨v, hv⟩ := mem_keys_dictGet r.dataMap _ hkm
      refine ⟨v, ?_⟩
      unfold KRecord.getPos
      rw [if_pos h, hv]
  · intro h
    unfold KRecord.getPos
    rw [if_neg h]

theorem C10_record_access_witness :
    c10R.getPos 1 = c10R.getName "line_number"
    ∧ c10R.getPos 1 = .ok (.vint 10)
    ∧ c10R.getPos (-1) = .error "Index -1 out of range" := by
  have h := C10_record_access c10R 1
  have h2 := C10_record_access c10R (-1)
  refine ⟨?_, ?_, ?_⟩
  · exact (h.1 (by decide)).1
  · have := (h.1 (by decide)).1
    exact this.trans (by rfl)
  · exact (h2.2 (by decide)).trans (by rfl)

end KuzuV
